import Mathlib

/-!
# Verification of the prompt-builder persistence and session layer

A shallow embedding of the repository's core modules:

* `modules/database.py` — `PromptDatabase`, a SQLite-backed store with four
  tables (`prompt_documents`, `conversations`, `messages`, `generated_prompts`).
  Tables are modelled as Lean lists kept in rowid (insertion) order, with
  explicit `next…Id` autoincrement counters.  `datetime.now().isoformat()` is
  modelled by an explicit `now : Nat` argument to each operation that reads the
  clock.  SQL `NULL` is `Option`.  A raised `sqlite3.IntegrityError` on the
  `UNIQUE` document-name column (the spec's `DuplicateNameError`) is modelled
  by an `Except` error value together with the unchanged store (the
  transaction rolls back, so the file is untouched).

* `modules/conversation.py` — `ConversationManager`, which binds one external
  `session_id` to at most one active conversation.  Python truthiness checks
  on `self.conversation_id` (`if not self.conversation_id`) are modelled
  literally: `None` and `0` are falsy.

Theorems below settle the frozen claims about this code.
-/

/-- A row of `prompt_documents` (see `_init_db`).  The schema column is named
`github_url` in the code (the spec calls it `source_url`). -/
structure Document where
  id : Nat
  name : String
  description : Option String
  github_url : Option String
  local_path : Option String
  category : Option String
  priority : Int
  source_updated_at : Option String
  created_at : Nat
  updated_at : Nat
deriving DecidableEq, Repr

/-- A row of `conversations`. `status` is the literal TEXT column,
`'active'` or `'completed'`. -/
structure Conversation where
  id : Nat
  session_id : String
  started_at : Nat
  ended_at : Option Nat
  agent_name : Option String
  status : String
deriving DecidableEq, Repr

/-- A row of `messages`. -/
structure Message where
  id : Nat
  conversation_id : Nat
  role : String
  content : String
  timestamp : Nat
deriving DecidableEq, Repr

/-- A row of `generated_prompts`. -/
structure GeneratedPrompt where
  id : Nat
  conversation_id : Option Nat
  name : String
  content : String
  metadata : Option String
  created_at : Nat
deriving DecidableEq, Repr

/-- The SQLite file: each table as a list of rows in rowid order, plus the
autoincrement counter of each table (SQLite hands out `lastrowid` values
1, 2, 3, … for these append-only tables). -/
structure PromptDatabase where
  documents : List Document
  conversations : List Conversation
  messages : List Message
  generated_prompts : List GeneratedPrompt
  nextDocId : Nat
  nextConvId : Nat
  nextMsgId : Nat
  nextGenId : Nat
deriving DecidableEq, Repr

/-- A freshly created database file (`_init_db` on a new path): all four
tables empty, every autoincrement counter at 1. -/
def empty_db : PromptDatabase :=
  ⟨[], [], [], [], 1, 1, 1, 1⟩

/-- The one domain-level error the store distinguishes: the UNIQUE
constraint on `prompt_documents.name` (`sqlite3.IntegrityError`, which the
spec surfaces as `DuplicateNameError`). -/
inductive DbError where
  | duplicateName
deriving DecidableEq, Repr

/-! ## Document operations -/

/-- `PromptDatabase.add_document`.  The `INSERT` hits the `UNIQUE` constraint
on `name` exactly when a row with that name already exists; the transaction
rolls back, so on error the store is returned unchanged.  On success the row
is appended with `created_at = updated_at = now` and the new `lastrowid` is
returned. -/
def add_document (db : PromptDatabase) (name : String)
    (description github_url local_path category : Option String)
    (priority : Int) (source_updated_at : Option String) (now : Nat) :
    Except DbError Nat × PromptDatabase :=
  if db.documents.any (fun d => d.name == name) then
    (Except.error DbError.duplicateName, db)
  else
    (Except.ok db.nextDocId,
     { db with
        documents := db.documents ++
          [⟨db.nextDocId, name, description, github_url, local_path,
            category, priority, source_updated_at, now, now⟩],
        nextDocId := db.nextDocId + 1 })

/-- `PromptDatabase.get_document`: `SELECT * FROM prompt_documents WHERE name = ?`. -/
def get_document (db : PromptDatabase) (name : String) : Option Document :=
  (db.documents.filter (fun d => d.name == name)).head?

/-- Python truthiness of the `category: str = None` argument in
`list_documents`: `if category:` is false for `None` and for `""`. -/
def categoryTruthy : Option String → Bool
  | none => false
  | some s => !(s == "")

/-- `NULL`-first order on the nullable `category` column: SQLite sorts `NULL`
before every TEXT value in ascending order, which is exactly `WithBot`. -/
def toWB : Option String → WithBot String
  | none => ⊥
  | some s => (s : WithBot String)

/-- The `ORDER BY priority DESC, category, name` sort key of
`list_documents` (no category filter, `order_by_priority=True`):
descending priority first (`OrderDual`), then `category` with `NULL` first,
then `name`, lexicographically. -/
def docKey (d : Document) : Intᵒᵈ ×ₗ (WithBot String ×ₗ String) :=
  toLex (OrderDual.toDual d.priority, toLex (toWB d.category, d.name))

/-- Row comparison realising `ORDER BY priority DESC, category, name`. -/
def docLE (d₁ d₂ : Document) : Prop := docKey d₁ ≤ docKey d₂

instance : DecidableRel docLE :=
  fun a b => inferInstanceAs (Decidable (docKey a ≤ docKey b))

instance : IsTotal Document docLE := ⟨fun a b => le_total (docKey a) (docKey b)⟩

instance : IsTrans Document docLE := ⟨fun _ _ _ h₁ h₂ => le_trans h₁ h₂⟩

/-- The `ORDER BY priority DESC, name` key (category filter given). -/
def docKeyCat (d : Document) : Intᵒᵈ ×ₗ String :=
  toLex (OrderDual.toDual d.priority, d.name)

/-- Row comparison realising `ORDER BY priority DESC, name`. -/
def docLE_cat (d₁ d₂ : Document) : Prop := docKeyCat d₁ ≤ docKeyCat d₂

instance : DecidableRel docLE_cat :=
  fun a b => inferInstanceAs (Decidable (docKeyCat a ≤ docKeyCat b))

/-- The `ORDER BY category, name` key (`order_by_priority=False`, no filter). -/
def docKeyNP (d : Document) : WithBot String ×ₗ String :=
  toLex (toWB d.category, d.name)

/-- Row comparison realising `ORDER BY category, name`. -/
def docLE_np (d₁ d₂ : Document) : Prop := docKeyNP d₁ ≤ docKeyNP d₂

instance : DecidableRel docLE_np :=
  fun a b => inferInstanceAs (Decidable (docKeyNP a ≤ docKeyNP b))

/-- Row comparison realising `ORDER BY name`. -/
def docLE_name (d₁ d₂ : Document) : Prop := d₁.name ≤ d₂.name

instance : DecidableRel docLE_name :=
  fun a b => inferInstanceAs (Decidable (a.name ≤ b.name))

/-- `PromptDatabase.list_documents`.  With a truthy category: rows with that
category, ordered by `priority DESC, name` (or `name`).  Otherwise: all rows,
ordered by `priority DESC, category, name` (or `category, name`).  `ORDER BY`
is modelled as sorting by the corresponding key. -/
def list_documents (db : PromptDatabase) (category : Option String)
    (order_by_priority : Bool) : List Document :=
  if categoryTruthy category then
    let rows := db.documents.filter (fun d => d.category == category)
    if order_by_priority then List.insertionSort docLE_cat rows
    else List.insertionSort docLE_name rows
  else
    if order_by_priority then List.insertionSort docLE db.documents
    else List.insertionSort docLE_np db.documents

/-- The `**kwargs` of `update_document`, i.e. a Python dict: each allow-listed
key is either absent (`none`) or present with a (possibly `NULL`) value;
`unknownKeys` stands for any other keys in the dict, which the allow-list
filter discards before anything is written. -/
structure UpdateFields where
  description : Option (Option String)
  github_url : Option (Option String)
  local_path : Option (Option String)
  category : Option (Option String)
  priority : Option Int
  source_updated_at : Option (Option String)
  unknownKeys : List String
deriving DecidableEq, Repr

/-- An update dict with no keys at all. -/
def updNone : UpdateFields := ⟨none, none, none, none, none, none, []⟩

/-- The update dict `{"priority": 99}`. -/
def upd_priority99 : UpdateFields := ⟨none, none, none, none, some 99, none, []⟩

/-- `updates` is non-empty after the allow-list filter: at least one of the
six allowed keys is present in the dict. -/
def hasAllowedField (u : UpdateFields) : Bool :=
  u.description.isSome || u.github_url.isSome || u.local_path.isSome ||
    u.category.isSome || u.priority.isSome || u.source_updated_at.isSome

/-- The `SET` clause of `update_document` applied to one row: each present
allow-listed field overwrites the column, and `updated_at` is set to `now`. -/
def applyUpdates (u : UpdateFields) (now : Nat) (d : Document) : Document :=
  { d with
    description := u.description.getD d.description
    github_url := u.github_url.getD d.github_url
    local_path := u.local_path.getD d.local_path
    category := u.category.getD d.category
    priority := u.priority.getD d.priority
    source_updated_at := u.source_updated_at.getD d.source_updated_at
    updated_at := now }

/-- `PromptDatabase.update_document`.  If the allow-list filter leaves no
updates, return `False` and write nothing.  Otherwise run
`UPDATE prompt_documents SET … WHERE name = ?` (which touches every row whose
`name` matches — possibly none) and return `True` unconditionally: the code
never inspects the affected row count. -/
def update_document (db : PromptDatabase) (name : String) (u : UpdateFields)
    (now : Nat) : Bool × PromptDatabase :=
  if hasAllowedField u then
    (true,
     { db with
        documents := db.documents.map
          (fun d => if d.name == name then applyUpdates u now d else d) })
  else
    (false, db)

/-- `PromptDatabase.delete_document`: `DELETE … WHERE name = ?`, returning
whether any row was removed (`cursor.rowcount > 0`). -/
def delete_document (db : PromptDatabase) (name : String) : Bool × PromptDatabase :=
  (db.documents.any (fun d => d.name == name),
   { db with documents := db.documents.filter (fun d => !(d.name == name)) })

/-! ## Conversation operations -/

/-- `PromptDatabase.create_conversation`: insert a row with
`status='active'`, `started_at=now`, `ended_at=NULL`; return `lastrowid`. -/
def create_conversation (db : PromptDatabase) (session_id : String)
    (agent_name : Option String) (now : Nat) : Nat × PromptDatabase :=
  (db.nextConvId,
   { db with
      conversations := db.conversations ++
        [⟨db.nextConvId, session_id, now, none, agent_name, "active"⟩],
      nextConvId := db.nextConvId + 1 })

/-- `PromptDatabase.end_conversation`: `UPDATE conversations SET ended_at = ?,
status = 'completed' WHERE id = ?`. -/
def end_conversation (db : PromptDatabase) (conversation_id : Nat) (now : Nat) :
    PromptDatabase :=
  { db with
     conversations := db.conversations.map
       (fun c =>
         if c.id == conversation_id then
           { c with ended_at := some now, status := "completed" }
         else c) }

/-- Fold realising `ORDER BY id DESC LIMIT 1`: keep the row with the greatest
`id` seen so far. -/
def pickMaxId (acc : Option Conversation) (c : Conversation) : Option Conversation :=
  match acc with
  | none => some c
  | some a => if a.id < c.id then some c else some a

/-- `PromptDatabase.get_active_conversation`: among rows with this
`session_id` and `status='active'`, the one with the greatest `id`
(`ORDER BY id DESC LIMIT 1`), or `None`. -/
def get_active_conversation (db : PromptDatabase) (session_id : String) :
    Option Conversation :=
  (db.conversations.filter
      (fun c => c.session_id == session_id && c.status == "active")).foldl
    pickMaxId none

/-! ## Message operations -/

/-- `PromptDatabase.add_message`: append a row, return `lastrowid`.  No check
that `conversation_id` exists (the foreign key is declarative only). -/
def add_message (db : PromptDatabase) (conversation_id : Nat)
    (role content : String) (now : Nat) : Nat × PromptDatabase :=
  (db.nextMsgId,
   { db with
      messages := db.messages ++
        [⟨db.nextMsgId, conversation_id, role, content, now⟩],
      nextMsgId := db.nextMsgId + 1 })

/-- `ORDER BY id ASC` on messages. -/
def msgLE (m₁ m₂ : Message) : Prop := m₁.id ≤ m₂.id

instance : DecidableRel msgLE :=
  fun a b => inferInstanceAs (Decidable (a.id ≤ b.id))

instance : IsTotal Message msgLE := ⟨fun a b => Nat.le_total a.id b.id⟩

instance : IsTrans Message msgLE := ⟨fun _ _ _ h₁ h₂ => Nat.le_trans h₁ h₂⟩

/-- `PromptDatabase.get_messages` (`limit: int = None`).  Rows of the
conversation in ascending id order; the Python `if limit:` appends a SQL
`LIMIT` clause only when `limit` is truthy (not `None` and not `0`), and a
negative SQL `LIMIT` means "no limit" in SQLite. -/
def get_messages (db : PromptDatabase) (conversation_id : Nat)
    (limit : Option Int) : List Message :=
  let rows := List.insertionSort msgLE
    (db.messages.filter (fun m => m.conversation_id == conversation_id))
  match limit with
  | none => rows
  | some l => if l = 0 then rows else if l < 0 then rows else rows.take l.toNat

/-! ## Session Manager (`ConversationManager`) -/

/-- The manager's mutable state: its `session_id` and the cached
`conversation_id` (Python `Optional[int]`). -/
structure ConversationManager where
  session_id : String
  conversation_id : Option Nat
deriving DecidableEq, Repr

/-- Python truthiness of `self.conversation_id`: `None` and `0` are falsy. -/
def isTruthy : Option Nat → Bool
  | none => false
  | some n => !(n == 0)

/-- `ConversationManager._ensure_conversation`: adopt the store's active
conversation for this session if there is one, otherwise create one. -/
def ensure_conversation (mgr : ConversationManager) (db : PromptDatabase)
    (now : Nat) : ConversationManager × PromptDatabase :=
  match get_active_conversation db mgr.session_id with
  | some conv => ({ mgr with conversation_id := some conv.id }, db)
  | none =>
      let r := create_conversation db mgr.session_id none now
      ({ mgr with conversation_id := some r.1 }, r.2)

/-- `ConversationManager.new_conversation`: end the tracked conversation if
the cached id is truthy, then create and adopt a fresh one; return its id. -/
def new_conversation (mgr : ConversationManager) (db : PromptDatabase)
    (agent_name : Option String) (now : Nat) :
    Nat × ConversationManager × PromptDatabase :=
  let db1 :=
    if isTruthy mgr.conversation_id then
      end_conversation db (mgr.conversation_id.getD 0) now
    else db
  let r := create_conversation db1 mgr.session_id agent_name now
  (r.1, { mgr with conversation_id := some r.1 }, r.2)

/-- `ConversationManager.add_message`: re-ensure a conversation if the cached
id is falsy, then append via the store. -/
def mgr_add_message (mgr : ConversationManager) (db : PromptDatabase)
    (role content : String) (now : Nat) : ConversationManager × PromptDatabase :=
  let st :=
    if isTruthy mgr.conversation_id then (mgr, db)
    else ensure_conversation mgr db now
  let r := add_message st.2 (st.1.conversation_id.getD 0) role content now
  (st.1, r.2)

/-- `ConversationManager.get_messages`: empty when the cached id is falsy,
otherwise delegate to the store. -/
def mgr_get_messages (mgr : ConversationManager) (db : PromptDatabase)
    (limit : Option Int) : List Message :=
  if isTruthy mgr.conversation_id then
    get_messages db (mgr.conversation_id.getD 0) limit
  else []

/-- One transcript line: `f"{role}: {content}"` with role label `User` when
`msg["role"] == "user"` and `Assistant` otherwise. -/
def msgLine (m : Message) : String :=
  (if m.role == "user" then "User" else "Assistant") ++ ": " ++ m.content

/-- `ConversationManager.get_context_for_claude` (`limit: int = 10`): format
`self.get_messages(limit)` one line per message, joined with newlines; the
empty string when there are no messages. -/
def get_context_for_claude (mgr : ConversationManager) (db : PromptDatabase)
    (limit : Int) : String :=
  let messages := mgr_get_messages mgr db (some limit)
  if messages.isEmpty then ""
  else String.intercalate "\n" (messages.map msgLine)

/-! ## Shared concrete fixtures for witnesses and counterexamples -/

/-- A sample stored document named `"x"`. -/
def docX : Document := ⟨1, "x", some "desc-x", none, none, some "catA", 10, none, 0, 0⟩

/-- A store holding just `docX`. -/
def dbX : PromptDatabase := { empty_db with documents := [docX], nextDocId := 2 }

/-! ## Claim C2 — duplicate document names are rejected, store untouched -/

/-- C2: if some stored document already has name `name`, `add_document`
fails with the duplicate-name error and returns the store unchanged (the
failed `INSERT` rolls back), so the pre-existing row keeps all its fields. -/
theorem c2_duplicate_add_rejected (db : PromptDatabase) (name : String)
    (description github_url local_path category : Option String)
    (priority : Int) (source_updated_at : Option String) (now : Nat)
    (h : ∃ d ∈ db.documents, d.name = name) :
    add_document db name description github_url local_path category priority
        source_updated_at now
      = (Except.error DbError.duplicateName, db) := by
  obtain ⟨d, hd, hdn⟩ := h
  have hany : db.documents.any (fun d => d.name == name) = true := by
    rw [List.any_eq_true]
    exact ⟨d, hd, by simp [hdn]⟩
  simp [add_document, hany]

/-- Witness for C2 at a concrete store. -/
theorem c2_duplicate_add_rejected_witness :
    add_document dbX "x" none none none none 0 none 9
      = (Except.error DbError.duplicateName, dbX) :=
  c2_duplicate_add_rejected dbX "x" none none none none 0 none 9
    ⟨docX, by simp [dbX], rfl⟩

/-! ## Claim C5 — updateDocument on a missing name -/

/-- C5 counterexample: the claim says `updateDocument` returns false when no
document has the given name; on the empty store with the allow-listed field
`priority`, the code returns `True` (it never inspects the affected row
count). -/
theorem c5_counterexample :
    (update_document empty_db "x" upd_priority99 0).1 ≠ false := by decide

/-- C5 amended: when no stored document is named `name` and the update dict
has at least one allow-listed field, `update_document` returns `True` (not
false) and writes nothing: the store is returned unchanged. -/
theorem c5_update_missing_returns_true (db : PromptDatabase) (name : String)
    (u : UpdateFields) (now : Nat)
    (h : ∀ d ∈ db.documents, d.name ≠ name) (hu : hasAllowedField u = true) :
    update_document db name u now = (true, db) := by
  unfold update_document
  rw [if_pos hu]
  have hmap : db.documents.map
      (fun d => if d.name == name then applyUpdates u now d else d)
      = db.documents := by
    have h1 : ∀ d ∈ db.documents,
        (if d.name == name then applyUpdates u now d else d) = d := by
      intro d hd
      simp [h d hd]
    calc db.documents.map (fun d => if d.name == name then applyUpdates u now d else d)
        = db.documents.map id := List.map_congr_left h1
      _ = db.documents := List.map_id db.documents
  rw [hmap]

/-- Witness for the amended C5 at a concrete store. -/
theorem c5_update_missing_witness :
    update_document empty_db "x" upd_priority99 3 = (true, empty_db) :=
  c5_update_missing_returns_true empty_db "x" upd_priority99 3
    (by intro d hd; simp [empty_db] at hd) rfl

/-! ## Claim C8 — frame property of updateDocument -/

/-- C8: updating an existing document with `{"priority": 99}` returns `True`
and rewrites the table so that the row(s) named `name` change exactly their
`priority` and `updated_at` fields while every other row is returned
verbatim; and any update dict whose allow-listed intersection is empty
returns `False` and performs no write at all. -/
theorem c8_update_priority_frame (db : PromptDatabase) (name : String) (now : Nat)
    (_h : ∃ d ∈ db.documents, d.name = name) :
    (update_document db name upd_priority99 now).1 = true ∧
    (update_document db name upd_priority99 now).2.documents
      = db.documents.map
          (fun d => if d.name = name then
              { d with priority := 99, updated_at := now } else d) ∧
    (∀ (db' : PromptDatabase) (name' : String) (u : UpdateFields) (now' : Nat),
       hasAllowedField u = false → update_document db' name' u now' = (false, db')) := by
  refine ⟨rfl, ?_, ?_⟩
  · show db.documents.map
        (fun d => if d.name == name then applyUpdates upd_priority99 now d else d) = _
    apply List.map_congr_left
    intro d _
    by_cases hd : d.name = name <;>
      simp [hd, applyUpdates, upd_priority99]
  · intro db' name' u now' hu
    simp [update_document, hu]

/-- Witness for C8 at a concrete store. -/
theorem c8_update_priority_frame_witness :
    (update_document dbX "x" upd_priority99 5).1 = true ∧
    (update_document dbX "x" upd_priority99 5).2.documents
      = dbX.documents.map
          (fun d => if d.name = "x" then
              { d with priority := 99, updated_at := 5 } else d) ∧
    update_document dbX "q" updNone 7 = (false, dbX) := by
  have H := c8_update_priority_frame dbX "x" 5 ⟨docX, by simp [dbX], rfl⟩
  exact ⟨H.1, H.2.1, H.2.2 dbX "q" updNone 7 rfl⟩

/-! ## Claim C10 — getMessages with limit = 0 returns everything -/

/-- C10: `get_messages` with `limit = 0` behaves exactly like the unlimited
call (Python `if limit:` is false at `0`, so no SQL `LIMIT` is emitted), and
on a store whose message table is in ascending-id order it returns all
messages of the conversation, not the empty sequence. -/
theorem c10_limit_zero_returns_all (db : PromptDatabase) (cid : Nat)
    (h : List.Sorted msgLE db.messages) :
    get_messages db cid (some 0) = get_messages db cid none ∧
    get_messages db cid (some 0)
      = db.messages.filter (fun m => m.conversation_id == cid) := by
  refine ⟨rfl, ?_⟩
  have hs : List.Sorted msgLE (db.messages.filter (fun m => m.conversation_id == cid)) :=
    List.Pairwise.filter _ h
  simpa [get_messages] using hs.insertionSort_eq

/-- A store with one two-message conversation. -/
def dbMsgs : PromptDatabase :=
  { empty_db with
      conversations := [⟨1, "s", 0, none, none, "active"⟩],
      messages := [⟨1, 1, "user", "a", 0⟩, ⟨2, 1, "assistant", "b", 1⟩],
      nextConvId := 2, nextMsgId := 3 }

/-- Witness for C10 at a concrete store. -/
theorem c10_limit_zero_returns_all_witness :
    get_messages dbMsgs 1 (some 0) = get_messages dbMsgs 1 none ∧
    get_messages dbMsgs 1 (some 0)
      = dbMsgs.messages.filter (fun m => m.conversation_id == 1) :=
  c10_limit_zero_returns_all dbMsgs 1 (by decide)

/-! ## Claim C4 — getMessages order and limit semantics -/

/-- For a truthy positive `limit`, the SQL `LIMIT` clause caps the
ascending-id result to its first `limit` rows. -/
theorem get_messages_pos_limit (db : PromptDatabase) (cid : Nat) (k : Int)
    (hk : 1 ≤ k) :
    get_messages db cid (some k) = (get_messages db cid none).take k.toNat := by
  have h0 : ¬ k = 0 := by omega
  have h1 : ¬ k < 0 := by omega
  simp [get_messages, h0, h1]

/-- Appending a sequence of `(role, content)` turns to one conversation via
repeated `add_message` calls (each with a fresh clock reading). -/
def appendMessages (db : PromptDatabase) (conversation_id : Nat) :
    List (String × String) → Nat → PromptDatabase
  | [], _ => db
  | rc :: rest, now =>
      appendMessages (add_message db conversation_id rc.1 rc.2 now).2
        conversation_id rest (now + 1)

/-- Effect of `appendMessages` on a well-formed store: the message table stays
in ascending-id order with ids below the counter, and the rows of the target
conversation gain exactly one new row per appended pair, in order. -/
theorem appendMessages_filter (cid : Nat) :
    ∀ (s : List (String × String)) (db : PromptDatabase) (now : Nat),
      List.Sorted msgLE db.messages →
      (∀ m ∈ db.messages, m.id < db.nextMsgId) →
      ∃ new : List Message,
        (appendMessages db cid s now).messages.filter
            (fun m => m.conversation_id == cid)
          = db.messages.filter (fun m => m.conversation_id == cid) ++ new ∧
        new.map (fun m => (m.role, m.content)) = s ∧
        List.Sorted msgLE (appendMessages db cid s now).messages ∧
        (∀ m ∈ (appendMessages db cid s now).messages,
           m.id < (appendMessages db cid s now).nextMsgId) := by
  intro s
  induction s with
  | nil =>
      intro db now hs hb
      exact ⟨[], by simp [appendMessages], rfl, hs, hb⟩
  | cons rc rest ih =>
      intro db now hs hb
      set msg : Message := ⟨db.nextMsgId, cid, rc.1, rc.2, now⟩ with hmsg
      have hs' : List.Sorted msgLE (db.messages ++ [msg]) := by
        rw [List.Sorted, List.pairwise_append]
        refine ⟨hs, List.pairwise_singleton _ _, ?_⟩
        intro a ha b hb'
        rw [List.mem_singleton] at hb'
        subst hb'
        exact Nat.le_of_lt (hb a ha)
      have hb' : ∀ m ∈ db.messages ++ [msg], m.id < db.nextMsgId + 1 := by
        intro m hm
        rcases List.mem_append.mp hm with h | h
        · exact Nat.lt_succ_of_lt (hb m h)
        · rw [List.mem_singleton] at h
          subst h
          exact Nat.lt_succ_self _
      obtain ⟨new', h1, h2, h3, h4⟩ :=
        ih (add_message db cid rc.1 rc.2 now).2 (now + 1) hs' hb'
      refine ⟨msg :: new', ?_, by simp [h2], h3, h4⟩
      have hfl : (db.messages ++ [msg]).filter (fun m => m.conversation_id == cid)
          = db.messages.filter (fun m => m.conversation_id == cid) ++ [msg] := by
        rw [List.filter_append]
        simp [hmsg]
      calc (appendMessages (add_message db cid rc.1 rc.2 now).2 cid rest (now + 1)).messages.filter
              (fun m => m.conversation_id == cid)
          = (db.messages ++ [msg]).filter (fun m => m.conversation_id == cid) ++ new' := h1
        _ = (db.messages.filter (fun m => m.conversation_id == cid) ++ [msg]) ++ new' := by
              rw [hfl]
        _ = db.messages.filter (fun m => m.conversation_id == cid) ++ (msg :: new') := by
              rw [List.append_assoc, List.singleton_append]

/-- C4 amended: appending any sequence of messages to a conversation that had
none, `getMessages` with no limit returns them in the exact order appended,
and for every `k ≥ 1`, `getMessages(limit=k)` returns exactly the first `k`
of that sequence.  (At `k = 0` the code instead behaves like "no limit" —
see the counterexample.) -/
theorem c4_get_messages_order_and_limit (db : PromptDatabase) (cid : Nat)
    (s : List (String × String)) (now : Nat)
    (hs : List.Sorted msgLE db.messages)
    (hb : ∀ m ∈ db.messages, m.id < db.nextMsgId)
    (hfresh : ∀ m ∈ db.messages, m.conversation_id ≠ cid) :
    (get_messages (appendMessages db cid s now) cid none).map
        (fun m => (m.role, m.content)) = s ∧
    (∀ k : Nat, 1 ≤ k →
       get_messages (appendMessages db cid s now) cid (some (k : Int))
         = (get_messages (appendMessages db cid s now) cid none).take k) := by
  obtain ⟨new, hfil, hmap, hsorted, _⟩ := appendMessages_filter cid s db now hs hb
  have hnil : db.messages.filter (fun m => m.conversation_id == cid) = [] := by
    rw [List.filter_eq_nil_iff]
    intro m hm
    simp [hfresh m hm]
  have hgm : get_messages (appendMessages db cid s now) cid none = new := by
    have hsf : List.Sorted msgLE
        ((appendMessages db cid s now).messages.filter
          (fun m => m.conversation_id == cid)) :=
      List.Pairwise.filter _ hsorted
    show List.insertionSort msgLE _ = new
    rw [hsf.insertionSort_eq, hfil, hnil, List.nil_append]
  constructor
  · rw [hgm, hmap]
  · intro k hk
    rw [get_messages_pos_limit _ _ _ (by exact_mod_cast hk), Int.toNat_natCast]

/-- Witness for the amended C4 at a concrete store. -/
theorem c4_get_messages_order_and_limit_witness :
    (get_messages (appendMessages empty_db 1 [("user", "a"), ("assistant", "b")] 0) 1
        none).map (fun m => (m.role, m.content))
      = [("user", "a"), ("assistant", "b")] ∧
    get_messages (appendMessages empty_db 1 [("user", "a"), ("assistant", "b")] 0) 1
        (some 1)
      = (get_messages (appendMessages empty_db 1 [("user", "a"), ("assistant", "b")] 0) 1
          none).take 1 := by
  have H := c4_get_messages_order_and_limit empty_db 1
    [("user", "a"), ("assistant", "b")] 0 (by decide) (by decide) (by decide)
  exact ⟨H.1, H.2 1 le_rfl⟩

/-- C4 counterexample: at `k = 0`, `getMessages(limit=0)` does not return the
first `0` messages (the empty sequence) — it returns all of them, because
`if limit:` is false at `0` and no SQL `LIMIT` is emitted. -/
theorem c4_counterexample :
    get_messages dbMsgs 1 (some 0) ≠ (get_messages dbMsgs 1 none).take 0 := by
  decide

/-! ## Claim C3 — listDocuments ordering -/

/-- Inverse of `toWB`, to read the category column back out of a sort key. -/
def fromWB (w : WithBot String) : Option String :=
  WithBot.recBotCoe none some w

theorem fromWB_toWB (o : Option String) : fromWB (toWB o) = o := by
  cases o <;> rfl

/-- Project a sort key back to the plain `(priority, category, name)` triple. -/
def keyToTriple (k : Intᵒᵈ ×ₗ (WithBot String ×ₗ String)) :
    Int × Option String × String :=
  (OrderDual.ofDual (ofLex k).1, fromWB (ofLex (ofLex k).2).1, (ofLex (ofLex k).2).2)

theorem keyToTriple_docKey (d : Document) :
    keyToTriple (docKey d) = (d.priority, d.category, d.name) := by
  simp [keyToTriple, docKey, fromWB_toWB]

/-- Two permuted document tables sort to the same key sequence: the
`ORDER BY priority DESC, category, name` key order is a linear order, so the
sorted key list of a multiset of rows is unique. -/
theorem sorted_key_unique {l₁ l₂ : List Document} (h : l₁.Perm l₂) :
    (List.insertionSort docLE l₁).map docKey
      = (List.insertionSort docLE l₂).map docKey := by
  have hp : ((List.insertionSort docLE l₁).map docKey).Perm
      ((List.insertionSort docLE l₂).map docKey) :=
    (((List.perm_insertionSort docLE l₁).trans h).trans
      (List.perm_insertionSort docLE l₂).symm).map docKey
  have hs₁ : List.Sorted (· ≤ ·) ((List.insertionSort docLE l₁).map docKey) :=
    List.pairwise_map.mpr
      ((List.sorted_insertionSort docLE l₁).imp (fun hab => hab))
  have hs₂ : List.Sorted (· ≤ ·) ((List.insertionSort docLE l₂).map docKey) :=
    List.pairwise_map.mpr
      ((List.sorted_insertionSort docLE l₂).imp (fun hab => hab))
  exact List.eq_of_perm_of_sorted hp hs₁ hs₂

/-- C3: with no category filter, `list_documents` returns all stored
documents (a permutation of the table), sorted by descending `priority`, then
`category`, then `name`; and the resulting `(priority, category, name)`
sequence depends only on the multiset of rows, not on the order in which they
were inserted into the table. -/
theorem c3_list_documents_sorted (db db' : PromptDatabase)
    (hperm : db.documents.Perm db'.documents) :
    (list_documents db none true).Perm db.documents ∧
    List.Sorted docLE (list_documents db none true) ∧
    (list_documents db none true).map (fun d => (d.priority, d.category, d.name))
      = (list_documents db' none true).map
          (fun d => (d.priority, d.category, d.name)) := by
  refine ⟨?_, ?_, ?_⟩
  · exact List.perm_insertionSort docLE db.documents
  · exact List.sorted_insertionSort docLE db.documents
  · have e : ∀ l : List Document,
        l.map (fun d => (d.priority, d.category, d.name))
          = (l.map docKey).map keyToTriple := by
      intro l
      rw [List.map_map]
      exact List.map_congr_left (fun d _ => (keyToTriple_docKey d).symm)
    show (List.insertionSort docLE db.documents).map _
        = (List.insertionSort docLE db'.documents).map _
    rw [e, e, sorted_key_unique hperm]

/-- A second sample document, named `"y"`, higher priority than `docX`. -/
def docY : Document := ⟨2, "y", none, none, none, some "catB", 90, none, 0, 0⟩

/-- Two stores holding `docX` and `docY` in opposite insertion orders. -/
def dbP1 : PromptDatabase := { empty_db with documents := [docX, docY], nextDocId := 3 }

/-- See `dbP1`. -/
def dbP2 : PromptDatabase := { empty_db with documents := [docY, docX], nextDocId := 3 }

/-- Witness for C3 at a concrete pair of permuted stores. -/
theorem c3_list_documents_sorted_witness :
    (list_documents dbP1 none true).Perm dbP1.documents ∧
    List.Sorted docLE (list_documents dbP1 none true) ∧
    (list_documents dbP1 none true).map (fun d => (d.priority, d.category, d.name))
      = (list_documents dbP2 none true).map
          (fun d => (d.priority, d.category, d.name)) :=
  c3_list_documents_sorted dbP1 dbP2 (by decide)

/-! ## Claim C9 — ensureConversation is idempotent -/

/-- The `ORDER BY id DESC LIMIT 1` fold yields a row whenever it starts from
one. -/
theorem foldl_pickMaxId_some_ne_none :
    ∀ (t : List Conversation) (a : Conversation),
      t.foldl pickMaxId (some a) ≠ none := by
  intro t
  induction t with
  | nil => intro a h'; exact Option.noConfusion h'
  | cons b t ih =>
      intro a h'
      rw [List.foldl_cons] at h'
      by_cases hab : a.id < b.id <;> simp [pickMaxId, hab] at h'
      · exact ih b h'
      · exact ih a h'

/-- The `ORDER BY id DESC LIMIT 1` fold returns `None` exactly on the empty
row set. -/
theorem foldl_pickMaxId_none_iff (l : List Conversation) :
    l.foldl pickMaxId none = none ↔ l = [] := by
  constructor
  · intro h
    cases l with
    | nil => rfl
    | cons c t =>
        exact absurd h (foldl_pickMaxId_some_ne_none t c)
  · intro h
    subst h
    rfl

/-- C9: two `_ensure_conversation` calls in a row (no intervening operation):
the second call leaves the tracked conversation id unchanged and leaves the
store exactly as it was after the first call — in particular it creates no
new conversation row. -/
theorem c9_ensure_idempotent (mgr : ConversationManager) (db : PromptDatabase)
    (now₁ now₂ : Nat) :
    (ensure_conversation (ensure_conversation mgr db now₁).1
        (ensure_conversation mgr db now₁).2 now₂).1.conversation_id
      = (ensure_conversation mgr db now₁).1.conversation_id ∧
    (ensure_conversation (ensure_conversation mgr db now₁).1
        (ensure_conversation mgr db now₁).2 now₂).2
      = (ensure_conversation mgr db now₁).2 := by
  cases hga : get_active_conversation db mgr.session_id with
  | some c =>
      refine ⟨?_, ?_⟩ <;> simp [ensure_conversation, hga]
  | none =>
      have hnil : db.conversations.filter
          (fun c => c.session_id == mgr.session_id && c.status == "active") = [] :=
        (foldl_pickMaxId_none_iff _).mp hga
      have h1 : ensure_conversation mgr db now₁
          = ({ mgr with conversation_id := some db.nextConvId },
             { db with
                conversations := db.conversations ++
                  [⟨db.nextConvId, mgr.session_id, now₁, none, none, "active"⟩],
                nextConvId := db.nextConvId + 1 }) := by
        simp [ensure_conversation, hga, create_conversation]
      rw [h1]
      have hga2 : get_active_conversation
          { db with
             conversations := db.conversations ++
               [⟨db.nextConvId, mgr.session_id, now₁, none, none, "active"⟩],
             nextConvId := db.nextConvId + 1 }
          mgr.session_id
          = some ⟨db.nextConvId, mgr.session_id, now₁, none, none, "active"⟩ := by
        unfold get_active_conversation
        rw [List.filter_append, hnil]
        simp [pickMaxId]
      refine ⟨?_, ?_⟩ <;> simp [ensure_conversation, hga2]

/-! ## Claim C1 — at most one active conversation per session -/

/-- The operations a caller can invoke on one Session Manager after
construction: `_ensure_conversation`, `new_conversation`, `add_message`. -/
inductive SMOp where
  | ensureConv (now : Nat)
  | newConv (agent_name : Option String) (now : Nat)
  | addMsg (role content : String) (now : Nat)
deriving DecidableEq, Repr

/-- Run one Session Manager operation on the (manager, store) state. -/
def runOp (st : ConversationManager × PromptDatabase) :
    SMOp → ConversationManager × PromptDatabase
  | SMOp.ensureConv now => ensure_conversation st.1 st.2 now
  | SMOp.newConv agent_name now =>
      ((new_conversation st.1 st.2 agent_name now).2.1,
       (new_conversation st.1 st.2 agent_name now).2.2)
  | SMOp.addMsg role content now => mgr_add_message st.1 st.2 role content now

/-- Run a sequence of Session Manager operations. -/
def runOps (st : ConversationManager × PromptDatabase) (ops : List SMOp) :
    ConversationManager × PromptDatabase :=
  ops.foldl runOp st

/-- `ConversationManager.__init__` with an explicit `session_id`: the cached
conversation id starts as `None`, then `_ensure_conversation` runs. -/
def initManager (session_id : String) (db : PromptDatabase) (now : Nat) :
    ConversationManager × PromptDatabase :=
  ensure_conversation ⟨session_id, none⟩ db now

/-- Number of conversation rows with this `session_id` and `status='active'`. -/
def countActiveFor (db : PromptDatabase) (s : String) : Nat :=
  (db.conversations.filter
    (fun c => c.session_id == s && c.status == "active")).length

/-- Reachability invariant of a single Session Manager driven alone from a
store with no conversations: every conversation row belongs to the manager's
session, row ids are bounded by the autoincrement counter, and the manager
caches the id of the unique active row. -/
def StateInv (sid : String) (mgr : ConversationManager) (db : PromptDatabase) :
    Prop :=
  mgr.session_id = sid ∧
  (∀ c ∈ db.conversations, c.session_id = sid) ∧
  (∀ c ∈ db.conversations, c.id < db.nextConvId) ∧
  1 ≤ db.nextConvId ∧
  ∃ cid, mgr.conversation_id = some cid ∧ 1 ≤ cid ∧
    (db.conversations.filter (fun c => c.status == "active")).map
      Conversation.id = [cid]

theorem filter_session_active (l : List Conversation) (sid : String)
    (h : ∀ c ∈ l, c.session_id = sid) :
    l.filter (fun c => c.session_id == sid && c.status == "active")
      = l.filter (fun c => c.status == "active") := by
  apply List.filter_congr
  intro c hc
  simp [h c hc]

theorem activeRows_singleton {l : List Conversation} {cid : Nat}
    (h : (l.filter (fun c => c.status == "active")).map Conversation.id = [cid]) :
    ∃ a, l.filter (fun c => c.status == "active") = [a] ∧ a.id = cid := by
  cases hfa : l.filter (fun c => c.status == "active") with
  | nil => rw [hfa] at h; simp at h
  | cons a t =>
      rw [hfa] at h
      cases t with
      | nil =>
          simp only [List.map_cons, List.map_nil, List.cons.injEq, and_true] at h
          exact ⟨a, rfl, h⟩
      | cons b t' => simp at h

/-- `end_conversation` leaves each row's `session_id` and `id` intact. -/
theorem mem_end_conversation {db : PromptDatabase} {cid now : Nat}
    {c : Conversation}
    (hc : c ∈ (end_conversation db cid now).conversations) :
    ∃ c₀ ∈ db.conversations, c.session_id = c₀.session_id ∧ c.id = c₀.id := by
  obtain ⟨c₀, hc₀, rfl⟩ := List.mem_map.mp hc
  refine ⟨c₀, hc₀, ?_, ?_⟩ <;> by_cases h : c₀.id == cid <;>
    simp [end_conversation, h]

/-- The active rows surviving `end_conversation cid` are the previously
active rows whose id differs from `cid`. -/
theorem activeRows_end_conversation (db : PromptDatabase) (cid now : Nat) :
    (end_conversation db cid now).conversations.filter
        (fun c => c.status == "active")
      = db.conversations.filter
          (fun c => !(c.id == cid) && c.status == "active") := by
  show (db.conversations.map _).filter _ = _
  induction db.conversations with
  | nil => rfl
  | cons c t ih =>
      rw [List.map_cons, List.filter_cons, List.filter_cons]
      by_cases hc : c.id = cid
      · have hbe : (c.id == cid) = true := by simp [hc]
        rw [hbe, if_pos rfl, Bool.not_true, Bool.false_and,
          if_neg (by simp), if_neg (by decide)]
        exact ih
      · have hbe : (c.id == cid) = false := by simp [hc]
        rw [hbe, Bool.not_false, Bool.true_and,
          if_neg (show ¬ (false = true) by simp)]
        by_cases hs : (c.status == "active") = true
        · rw [if_pos hs, if_pos hs, ih]
        · rw [if_neg hs, if_neg hs, ih]

/-- One step of the Session Manager preserves the invariant. -/
theorem runOp_inv (sid : String) (mgr : ConversationManager)
    (db : PromptDatabase) (op : SMOp) (h : StateInv sid mgr db) :
    StateInv sid (runOp (mgr, db) op).1 (runOp (mgr, db) op).2 := by
  obtain ⟨hsid, hall, hbound, hnext, cid, hcid, hcid1, hact⟩ := h
  obtain ⟨a, ha, haid⟩ := activeRows_singleton hact
  cases op with
  | ensureConv now =>
      have hga : get_active_conversation db mgr.session_id = some a := by
        unfold get_active_conversation
        rw [hsid, filter_session_active _ _ hall, ha]
        rfl
      have he : runOp (mgr, db) (SMOp.ensureConv now)
          = ({ mgr with conversation_id := some a.id }, db) := by
        show ensure_conversation mgr db now = _
        unfold ensure_conversation
        rw [hga]
      rw [he]
      exact ⟨hsid, hall, hbound, hnext, a.id, rfl, haid ▸ hcid1, haid ▸ hact⟩
  | newConv agent now =>
      have h0 : cid ≠ 0 := by omega
      have htr2 : isTruthy (some cid) = true := by
        simp [isTruthy, h0]
      have hstep : runOp (mgr, db) (SMOp.newConv agent now)
          = ({ mgr with conversation_id := some db.nextConvId },
             { end_conversation db cid now with
                conversations := (end_conversation db cid now).conversations ++
                  [⟨db.nextConvId, mgr.session_id, now, none, agent, "active"⟩],
                nextConvId := db.nextConvId + 1 }) := by
        simp [runOp, new_conversation, htr2, hcid, create_conversation,
          end_conversation]
      rw [hstep]
      have hend_nil : (end_conversation db cid now).conversations.filter
          (fun c => c.status == "active") = [] := by
        rw [activeRows_end_conversation, List.filter_eq_nil_iff]
        intro c hc
        by_cases hca : c.status == "active"
        · have hcmem : c ∈ db.conversations.filter (fun c => c.status == "active") :=
            List.mem_filter.mpr ⟨hc, hca⟩
          rw [ha, List.mem_singleton] at hcmem
          subst hcmem
          simp [haid]
        · simp [hca]
      refine ⟨hsid, ?_, ?_, ?_, db.nextConvId, rfl, hnext, ?_⟩
      · intro c hc
        rcases List.mem_append.mp hc with h' | h'
        · obtain ⟨c₀, hc₀, hses, -⟩ := mem_end_conversation h'
          rw [hses]
          exact hall c₀ hc₀
        · rw [List.mem_singleton] at h'
          subst h'
          exact hsid
      · intro c hc
        show c.id < db.nextConvId + 1
        rcases List.mem_append.mp hc with h' | h'
        · obtain ⟨c₀, hc₀, -, hid⟩ := mem_end_conversation h'
          rw [hid]
          exact Nat.lt_succ_of_lt (hbound c₀ hc₀)
        · rw [List.mem_singleton] at h'
          subst h'
          exact Nat.lt_succ_self _
      · show 1 ≤ db.nextConvId + 1
        omega
      · show (((end_conversation db cid now).conversations ++
            ([⟨db.nextConvId, mgr.session_id, now, none, agent, "active"⟩] :
              List Conversation)).filter
              (fun c : Conversation => c.status == "active")).map Conversation.id
          = [db.nextConvId]
        rw [List.filter_append, hend_nil, List.nil_append]
        rfl
  | addMsg role content now =>
      have h0 : cid ≠ 0 := by omega
      have htr2 : isTruthy (some cid) = true := by
        simp [isTruthy, h0]
      have hstep : runOp (mgr, db) (SMOp.addMsg role content now)
          = (mgr,
             { db with
                messages := db.messages ++ [⟨db.nextMsgId, cid, role, content, now⟩],
                nextMsgId := db.nextMsgId + 1 }) := by
        simp [runOp, mgr_add_message, htr2, add_message, hcid]
      rw [hstep]
      exact ⟨hsid, hall, hbound, hnext, cid, hcid, hcid1, hact⟩

/-- The invariant holds right after the manager is constructed on a store
with no conversation rows. -/
theorem initManager_inv (sid : String) (db0 : PromptDatabase) (now : Nat)
    (hconv : db0.conversations = []) (hnext : 1 ≤ db0.nextConvId) :
    StateInv sid (initManager sid db0 now).1 (initManager sid db0 now).2 := by
  have hga : get_active_conversation db0 sid = none := by
    unfold get_active_conversation
    rw [hconv]
    rfl
  have h1 : initManager sid db0 now
      = (⟨sid, some db0.nextConvId⟩,
         { db0 with
            conversations := db0.conversations ++
              [⟨db0.nextConvId, sid, now, none, none, "active"⟩],
            nextConvId := db0.nextConvId + 1 }) := by
    simp [initManager, ensure_conversation, hga, create_conversation]
  rw [h1]
  refine ⟨rfl, ?_, ?_, ?_, db0.nextConvId, rfl, hnext, ?_⟩
  · intro c hc
    show c.session_id = sid
    rw [show ({ db0 with
          conversations := db0.conversations ++
            [⟨db0.nextConvId, sid, now, none, none, "active"⟩],
          nextConvId := db0.nextConvId + 1 } : PromptDatabase).conversations
        = db0.conversations ++ [⟨db0.nextConvId, sid, now, none, none, "active"⟩]
      from rfl, hconv, List.nil_append, List.mem_singleton] at hc
    subst hc
    rfl
  · intro c hc
    show c.id < db0.nextConvId + 1
    rw [show ({ db0 with
          conversations := db0.conversations ++
            [⟨db0.nextConvId, sid, now, none, none, "active"⟩],
          nextConvId := db0.nextConvId + 1 } : PromptDatabase).conversations
        = db0.conversations ++ [⟨db0.nextConvId, sid, now, none, none, "active"⟩]
      from rfl, hconv, List.nil_append, List.mem_singleton] at hc
    subst hc
    exact Nat.lt_succ_self _
  · show 1 ≤ db0.nextConvId + 1
    omega
  · show ((db0.conversations ++ _).filter _).map _ = _
    rw [hconv, List.nil_append]
    rfl

/-- The invariant holds after any operation sequence. -/
theorem runOps_inv (sid : String) :
    ∀ (ops : List SMOp) (mgr : ConversationManager) (db : PromptDatabase),
      StateInv sid mgr db →
      StateInv sid (runOps (mgr, db) ops).1 (runOps (mgr, db) ops).2 := by
  intro ops
  induction ops with
  | nil => intro mgr db h; exact h
  | cons op rest ih =>
      intro mgr db h
      have hstep : runOps (mgr, db) (op :: rest)
          = runOps ((runOp (mgr, db) op).1, (runOp (mgr, db) op).2) rest := by
        rw [Prod.mk.eta]
        rfl
      rw [hstep]
      exact ih _ _ (runOp_inv sid mgr db op h)

/-- C1: starting from a store with no conversation rows, after any sequence
of `_ensure_conversation` / `new_conversation` / `add_message` operations by
a single Session Manager, every session id has at most one conversation row
with `status='active'`. -/
theorem c1_at_most_one_active (sid : String) (db0 : PromptDatabase)
    (now0 : Nat) (ops : List SMOp) (s : String)
    (hconv : db0.conversations = []) (hnext : 1 ≤ db0.nextConvId) :
    countActiveFor (runOps (initManager sid db0 now0) ops).2 s ≤ 1 := by
  have hinit := initManager_inv sid db0 now0 hconv hnext
  have hinv := runOps_inv sid ops (initManager sid db0 now0).1
    (initManager sid db0 now0).2 hinit
  rw [Prod.mk.eta] at hinv
  obtain ⟨-, -, -, -, cid, -, -, hact⟩ := hinv
  obtain ⟨a, ha, -⟩ := activeRows_singleton hact
  unfold countActiveFor
  rw [← List.filter_filter, ha]
  calc (List.filter (fun c => c.session_id == s) [a]).length
      ≤ [a].length := List.length_filter_le _ _
    _ = 1 := rfl

/-- Witness for C1 at a concrete run. -/
theorem c1_at_most_one_active_witness :
    countActiveFor
      (runOps (initManager "s1" empty_db 0)
        [SMOp.newConv none 1, SMOp.addMsg "user" "hi" 2, SMOp.ensureConv 3,
         SMOp.newConv (some "agent") 4]).2 "s1" ≤ 1 :=
  c1_at_most_one_active "s1" empty_db 0
    [SMOp.newConv none 1, SMOp.addMsg "user" "hi" 2, SMOp.ensureConv 3,
     SMOp.newConv (some "agent") 4] "s1" rfl (by decide)

/-! ## Claim C6 — newConversation ends A, adopts B, later messages go to B -/

/-- A sequence of `ConversationManager.add_message` calls, each with its own
role, content and clock reading. -/
def runAddMsgs (mgr : ConversationManager) (db : PromptDatabase)
    (adds : List (String × String × Nat)) :
    ConversationManager × PromptDatabase :=
  adds.foldl (fun st a => mgr_add_message st.1 st.2 a.1 a.2.1 a.2.2) (mgr, db)

/-- Messages produced by a run of `add_message` calls on a manager that
caches a truthy conversation id `B` either pre-existed or carry
`conversation_id = B`. -/
theorem runAddMsgs_messages (B : Nat) (hB : B ≠ 0) :
    ∀ (adds : List (String × String × Nat)) (mgr : ConversationManager)
      (db : PromptDatabase), mgr.conversation_id = some B →
      ∀ m ∈ (runAddMsgs mgr db adds).2.messages,
        m ∈ db.messages ∨ m.conversation_id = B := by
  intro adds
  induction adds with
  | nil => intro mgr db _ m hm; exact Or.inl hm
  | cons a rest ih =>
      intro mgr db hmgr m hm
      have htr2 : isTruthy (some B) = true := by simp [isTruthy, hB]
      have hstep : mgr_add_message mgr db a.1 a.2.1 a.2.2
          = (mgr,
             { db with
                messages := db.messages ++ [⟨db.nextMsgId, B, a.1, a.2.1, a.2.2⟩],
                nextMsgId := db.nextMsgId + 1 }) := by
        simp [mgr_add_message, htr2, hmgr, add_message]
      have hfold : runAddMsgs mgr db (a :: rest)
          = runAddMsgs mgr
              { db with
                 messages := db.messages ++ [⟨db.nextMsgId, B, a.1, a.2.1, a.2.2⟩],
                 nextMsgId := db.nextMsgId + 1 } rest := by
        unfold runAddMsgs
        rw [List.foldl_cons, hstep]
      rw [hfold] at hm
      rcases ih mgr _ hmgr m hm with hin | hB'
      · rcases List.mem_append.mp hin with h' | h'
        · exact Or.inl h'
        · rw [List.mem_singleton] at h'
          subst h'
          exact Or.inr rfl
      · exact Or.inr hB'

/-- C6: on a manager tracking conversation `A` (an existing row), starting a
new conversation returns a fresh id `B ≠ A`, caches `B`, keeps `A`'s row in
the store but marks every row with id `A` as `completed` with `ended_at`
set, and every message appended by subsequent `add_message` calls on that
manager carries `conversation_id = B`. -/
theorem c6_new_conversation (mgr : ConversationManager) (db : PromptDatabase)
    (A : Nat) (agent : Option String) (now : Nat)
    (htrack : mgr.conversation_id = some A) (hA : 1 ≤ A)
    (hmem : A ∈ db.conversations.map Conversation.id)
    (hbound : ∀ c ∈ db.conversations, c.id < db.nextConvId) :
    (new_conversation mgr db agent now).1 ≠ A ∧
    (new_conversation mgr db agent now).2.1.conversation_id
      = some (new_conversation mgr db agent now).1 ∧
    A ∈ (new_conversation mgr db agent now).2.2.conversations.map
      Conversation.id ∧
    (∀ c ∈ (new_conversation mgr db agent now).2.2.conversations,
       c.id = A → c.status = "completed" ∧ c.ended_at = some now) ∧
    (∀ (adds : List (String × String × Nat)) (m : Message),
       m ∈ (runAddMsgs (new_conversation mgr db agent now).2.1
              (new_conversation mgr db agent now).2.2 adds).2.messages →
       m ∈ (new_conversation mgr db agent now).2.2.messages ∨
         m.conversation_id = (new_conversation mgr db agent now).1) := by
  have h0 : A ≠ 0 := by omega
  have htr2 : isTruthy (some A) = true := by simp [isTruthy, h0]
  have hAlt : A < db.nextConvId := by
    obtain ⟨c, hc, hceq⟩ := List.mem_map.mp hmem
    exact hceq ▸ hbound c hc
  have hstep : new_conversation mgr db agent now
      = (db.nextConvId,
         { mgr with conversation_id := some db.nextConvId },
         { end_conversation db A now with
            conversations := (end_conversation db A now).conversations ++
              [⟨db.nextConvId, mgr.session_id, now, none, agent, "active"⟩],
            nextConvId := db.nextConvId + 1 }) := by
    simp [new_conversation, htr2, htrack, create_conversation, end_conversation]
  rw [hstep]
  refine ⟨by omega, rfl, ?_, ?_, ?_⟩
  · obtain ⟨c, hc, hceq⟩ := List.mem_map.mp hmem
    apply List.mem_map.mpr
    refine ⟨if c.id == A then
        { c with ended_at := some now, status := "completed" } else c,
      List.mem_append_left _ (List.mem_map.mpr ⟨c, hc, rfl⟩), ?_⟩
    by_cases h : c.id == A <;> simp [h, hceq]
  · intro c hc hcA
    rcases List.mem_append.mp hc with h' | h'
    · obtain ⟨c₀, hc₀, rfl⟩ := List.mem_map.mp h'
      by_cases h : c₀.id == A
      · simp [h]
      · rw [show (if c₀.id == A then
            { c₀ with ended_at := some now, status := "completed" } else c₀)
            = c₀ by simp [h]] at hcA
        simp at h
        exact absurd hcA h
    · rw [List.mem_singleton] at h'
      subst h'
      exact absurd hcA (by simp; omega)
  · intro adds m hm
    exact runAddMsgs_messages db.nextConvId (by omega) adds _ _ rfl m hm

/-- A store with one active conversation, id 1, for session `"s"`. -/
def dbC6 : PromptDatabase :=
  { empty_db with
      conversations := [⟨1, "s", 0, none, none, "active"⟩], nextConvId := 2 }

/-- The manager tracking conversation 1 of `dbC6`. -/
def mgrC6 : ConversationManager := ⟨"s", some 1⟩

/-- Witness for C6 at a concrete manager and store. -/
theorem c6_new_conversation_witness :
    (new_conversation mgrC6 dbC6 none 5).1 ≠ 1 ∧
    (new_conversation mgrC6 dbC6 none 5).2.1.conversation_id
      = some (new_conversation mgrC6 dbC6 none 5).1 ∧
    ((⟨1, 2, "user", "hi", 6⟩ : Message)
        ∈ (new_conversation mgrC6 dbC6 none 5).2.2.messages ∨
      (⟨1, 2, "user", "hi", 6⟩ : Message).conversation_id
        = (new_conversation mgrC6 dbC6 none 5).1) := by
  have H := c6_new_conversation mgrC6 dbC6 1 none 5 rfl (by decide) (by decide)
    (by decide)
  exact ⟨H.1, H.2.1, H.2.2.2.2 [("user", "hi", 6)] ⟨1, 2, "user", "hi", 6⟩
    (by decide)⟩

/-! ## Claim C7 — getContextTranscript -/

/-- The claim's reading of `getContextTranscript`: one line per message from
the *last*-bounded window — the most recent at most `limit` messages of the
history — in chronological order; empty when there is no history.  Written
from the claim's words, to be compared with `get_context_for_claude`. -/
def get_context_spec_last (mgr : ConversationManager) (db : PromptDatabase)
    (limit : Int) : String :=
  let all := mgr_get_messages mgr db none
  let window := (all.reverse.take limit.toNat).reverse
  if window.isEmpty then ""
  else String.intercalate "\n" (window.map msgLine)

/-- C7 counterexample: with two messages `a`, `b` and `limit = 1` the code
renders the *oldest* message (`"User: a"`), not the last-bounded window
(`"Assistant: b"`); and with `limit = 0` it renders every message rather
than at most `0`. -/
theorem c7_counterexample :
    get_context_for_claude ⟨"s", some 1⟩ dbMsgs 1
        ≠ get_context_spec_last ⟨"s", some 1⟩ dbMsgs 1 ∧
    get_context_for_claude ⟨"s", some 1⟩ dbMsgs 0
        ≠ get_context_spec_last ⟨"s", some 1⟩ dbMsgs 0 := by
  constructor <;> decide

/-- C7 amended: for a manager tracking conversation `cid` (truthy id) over a
store in ascending-id order, and any `limit ≥ 1`, the transcript is one line
per message — `"User: <content>"` for role `user`, `"Assistant: <content>"`
otherwise — for the *first*-bounded window (the oldest at most `limit`
messages of the conversation), joined by newlines in chronological order;
it is empty when the conversation has no messages, and empty whenever no
conversation is tracked. -/
theorem c7_transcript (mgr : ConversationManager) (db : PromptDatabase)
    (cid : Nat) (limit : Int)
    (htrack : mgr.conversation_id = some cid) (hc0 : cid ≠ 0)
    (hs : List.Sorted msgLE db.messages) (hl : 1 ≤ limit) :
    get_context_for_claude mgr db limit
      = String.intercalate "\n"
          (((db.messages.filter (fun m => m.conversation_id == cid)).take
              limit.toNat).map msgLine) ∧
    (db.messages.filter (fun m => m.conversation_id == cid) = [] →
      get_context_for_claude mgr db limit = "") ∧
    (∀ (mgr' : ConversationManager) (db' : PromptDatabase) (lim' : Int),
       mgr'.conversation_id = none → get_context_for_claude mgr' db' lim' = "") := by
  have htr2 : isTruthy (some cid) = true := by simp [isTruthy, hc0]
  have hgm : get_messages db cid none
      = db.messages.filter (fun m => m.conversation_id == cid) := by
    have hsf : List.Sorted msgLE
        (db.messages.filter (fun m => m.conversation_id == cid)) :=
      List.Pairwise.filter _ hs
    show List.insertionSort msgLE _ = _
    rw [hsf.insertionSort_eq]
  have hmm : mgr_get_messages mgr db (some limit)
      = (db.messages.filter (fun m => m.conversation_id == cid)).take
          limit.toNat := by
    unfold mgr_get_messages
    rw [htrack, htr2, if_pos rfl, Option.getD_some,
      get_messages_pos_limit db cid limit hl, hgm]
  have hmain : get_context_for_claude mgr db limit
      = String.intercalate "\n"
          (((db.messages.filter (fun m => m.conversation_id == cid)).take
              limit.toNat).map msgLine) := by
    unfold get_context_for_claude
    rw [hmm]
    by_cases he : (db.messages.filter (fun m => m.conversation_id == cid)).take
        limit.toNat = []
    · rw [he]
      rfl
    · have hne : ((db.messages.filter (fun m => m.conversation_id == cid)).take
          limit.toNat).isEmpty = false := by
        simp [List.isEmpty_iff, he]
      show (if ((db.messages.filter (fun m => m.conversation_id == cid)).take
            limit.toNat).isEmpty = true then ""
          else String.intercalate "\n"
            (((db.messages.filter (fun m => m.conversation_id == cid)).take
                limit.toNat).map msgLine))
        = String.intercalate "\n"
            (((db.messages.filter (fun m => m.conversation_id == cid)).take
                limit.toNat).map msgLine)
      rw [hne, if_neg (show ¬ (false = true) by simp)]
  refine ⟨hmain, ?_, ?_⟩
  · intro hnil
    rw [hmain, hnil, List.take_nil]
    rfl
  · intro mgr' db' lim' hnone
    unfold get_context_for_claude mgr_get_messages
    rw [hnone]
    rfl

/-- Witness for the amended C7 at a concrete store. -/
theorem c7_transcript_witness :
    get_context_for_claude ⟨"s", some 1⟩ dbMsgs 1
      = String.intercalate "\n"
          (((dbMsgs.messages.filter (fun m => m.conversation_id == 1)).take
              (1 : Int).toNat).map msgLine) ∧
    get_context_for_claude ⟨"noconv", none⟩ dbMsgs 7 = "" := by
  have H := c7_transcript ⟨"s", some 1⟩ dbMsgs 1 1 rfl (by decide) (by decide)
    (by decide)
  exact ⟨H.1, H.2.2 ⟨"noconv", none⟩ dbMsgs 7 rfl⟩
